import Mathlib

/-!
Verification development for the meal_prep repository's nominal core:
the ingredient-measure parser (`parseMeasure` in the recipes package) and
the cache-aside import pipeline (`ImportFromFile` / `GetMealByID` / `New`
in the internal mongo package).

Strings are modelled as `List Char`; machine IO (file reading, the mongo
and redis clients) is modelled by explicit state passing with failure
injection parameters.
-/

namespace MealPrep

/-! ## Character classes and Go string helpers -/

/-- The character class of the regex escape `\s` in Go's regexp package:
`[\t\n\f\r ]`. -/
def isSpaceRe (c : Char) : Bool :=
  c = ' ' || c = '\t' || c = '\n' || c = '\x0c' || c = '\r'

/-- ASCII fragment of `unicode.IsSpace`, used by `strings.TrimSpace`:
`\t \n \v \f \r ' '`. -/
def isSpaceGo (c : Char) : Bool :=
  isSpaceRe c || c = '\x0b'

/-- The regex character class `[0-9]`. -/
def isDigitCh (c : Char) : Bool :=
  '0' ≤ c && c ≤ '9'

/-- Model of `strings.TrimSpace`: drop leading and trailing whitespace. -/
def trimGo (s : List Char) : List Char :=
  ((s.dropWhile isSpaceGo).reverse.dropWhile isSpaceGo).reverse

/-- Model of `strings.Contains(s, sub)` for a single-character needle `"("`. -/
def containsChar (s : List Char) (c : Char) : Bool :=
  s.any (· = c)

/-- Model of `strings.Contains(s, sub)`: some suffix of `s` starts with `sub`. -/
def containsSub (sub : List Char) : List Char → Bool
  | [] => sub.isEmpty
  | c :: rest => sub.isPrefixOf (c :: rest) || containsSub sub rest

/-- ASCII fragment of `strings.ToLower`. -/
def toLowerGo (s : List Char) : List Char :=
  s.map Char.toLower

/-! ## The measure regex

`parseMeasure` matches the trimmed input against the Go regexp

  `^([0-9]+(?:\s+[0-9]+/[0-9]+)?|[0-9]+/[0-9]+|[0-9]+(?:\.[0-9]+)?)(?:\s*)(.*)$`

compiled with `regexp.MustCompile`, whose submatch semantics are
leftmost-first (Perl style): the alternatives of group 1 are tried left to
right, each with greedy backtracking, and the first combination that lets
the whole anchored pattern succeed wins.  We embed this matcher by
enumerating group 1's candidate prefix lengths in exactly that
backtracking order and selecting the first one whose remainder is accepted
by the tail `(?:\s*)(.*)$` (where `.` excludes `'\n'`). -/

/-- Length of the maximal prefix of `s` whose characters satisfy `p`. -/
def runLen (p : Char → Bool) (s : List Char) : Nat :=
  (s.takeWhile p).length

/-- The list `[n, n-1, ..., 1]`: greedy backtracking order for a `+`-quantified run. -/
def downFrom (n : Nat) : List Nat :=
  (List.range n).map (fun i => n - i)

/-- Candidate prefix lengths of the first alternative
`[0-9]+(?:\s+[0-9]+/[0-9]+)?`, in backtracking order.  The optional group
can only match with its `\s+` and first `[0-9]+` taken maximally (a shorter
whitespace run is followed by whitespace, not a digit; a shorter digit run
is followed by a digit, not `/`), and only when the leading digit run is
itself maximal (otherwise the next character is a digit, not whitespace). -/
def altACands (s : List Char) : List Nat :=
  let n := runLen isDigitCh s
  if n = 0 then []
  else
    let optCands :=
      let r1 := s.drop n
      let w := runLen isSpaceRe r1
      if w = 0 then []
      else
        let r2 := r1.drop w
        let m := runLen isDigitCh r2
        if m = 0 then []
        else
          match r2.drop m with
          | '/' :: r4 =>
            let p := runLen isDigitCh r4
            (downFrom p).map (fun q => n + w + m + 1 + q)
          | _ => []
    optCands ++ downFrom n

/-- Candidate prefix lengths of the second alternative `[0-9]+/[0-9]+`:
the leading digit run must be maximal (a shorter one is followed by a
digit, not `/`). -/
def altBCands (s : List Char) : List Nat :=
  let n := runLen isDigitCh s
  if n = 0 then []
  else
    match s.drop n with
    | '/' :: r2 =>
      let p := runLen isDigitCh r2
      (downFrom p).map (fun q => n + 1 + q)
    | _ => []

/-- Candidate prefix lengths of the third alternative
`[0-9]+(?:\.[0-9]+)?`, in backtracking order. -/
def altCCands (s : List Char) : List Nat :=
  let n := runLen isDigitCh s
  if n = 0 then []
  else
    let decCands :=
      match s.drop n with
      | '.' :: r2 =>
        let p := runLen isDigitCh r2
        (downFrom p).map (fun q => n + 1 + q)
      | _ => []
    decCands ++ downFrom n

/-- The tail `(?:\s*)(.*)$` accepts a remainder iff every `'\n'` in it lies
in its leading `\s` run (`.` does not match `'\n'`, and `$` is end of
text). -/
def tailOk (r : List Char) : Bool :=
  (r.dropWhile isSpaceRe).all (· ≠ '\n')

/-- Model of `re.FindStringSubmatch(s)` for the anchored measure regex: the first
candidate (in leftmost-first order) whose remainder the tail accepts
yields group 1 (the candidate prefix) and group 2 (the remainder after the
greedy `\s*`). Returns `none` when the regex does not match. -/
def findMeasureMatch (s : List Char) : Option (List Char × List Char) :=
  match (altACands s ++ altBCands s ++ altCCands s).find?
      (fun L => tailOk (s.drop L)) with
  | some L => some (s.take L, (s.drop L).dropWhile isSpaceRe)
  | none => none

/-- The compound/alternative-measure test of `parseMeasure`:
`strings.Contains(s, "(") || strings.Contains(strings.ToLower(s), " or ")`. -/
def isCompound (s : List Char) : Bool :=
  containsChar s '(' || containsSub [' ', 'o', 'r', ' '] (toLowerGo s)

/-- The helper `parseMeasure` from the recipes package's `ImportMealHandler`:
splits a free-text measure into optional quantity and unit. -/
def parseMeasure (msr : String) : Option String × Option String :=
  let s := trimGo msr.data
  if s = [] then (none, none)
  else if isCompound s then (some (String.mk s), none)
  else
    match findMeasureMatch s with
    | some (g1, g2) =>
      let q := String.mk (trimGo g1)
      let u := String.mk (trimGo g2)
      if u = "" then (some q, none) else (some q, some u)
    | none => (some (String.mk s), none)

example : parseMeasure "" = (none, none) := by decide
example : parseMeasure "2" = (some "2", none) := by decide
example : parseMeasure "1 1/2 cups" = (some "1 1/2", some "cups") := by decide
example : parseMeasure "1/2 tsp" = (some "1", some "/2 tsp") := by decide
example : parseMeasure "1.5 cups" = (some "1", some ".5 cups") := by decide
example : parseMeasure "Salt to taste (or to preference)" =
    (some "Salt to taste (or to preference)", none) := by decide
example : parseMeasure "2 cups or more" = (some "2 cups or more", none) := by decide
example : parseMeasure "abc" = (some "abc", none) := by decide

/-! ## JSON-ish values and documents

An import record is a decoded `map[string]interface{}`; a stored document
is a `bson.M`.  Both are modelled as association lists over a single value
type.  `jtime` models a `time.Time` value (`updatedAt`), with the clock an
explicit `Nat` of seconds. -/

inductive JVal where
  | jnull : JVal
  | jstr : String → JVal
  | jnum : Int → JVal
  | jbool : Bool → JVal
  | jarr : List JVal → JVal
  | jobj : List (String × JVal) → JVal
  | jtime : Nat → JVal

/-- A record / document: association list of fields (Go map, keys unique). -/
abbrev Doc := List (String × JVal)

/-- Field lookup in a record (`m[key]`; missing key gives the nil interface,
here `none`). -/
def Doc.get (m : Doc) (k : String) : Option JVal :=
  List.lookup k m

/-- Model of `fmt.Sprint` on a decoded JSON value, used by `toString` for non-string
non-nil values.  Element rendering of composites is elided (the import
logic only inspects whether the result is empty, and `fmt.Sprint` is never
empty on these shapes): numbers and booleans print their value, arrays and
maps print bracketed forms. -/
def sprint : JVal → String
  | .jnull => "<nil>"
  | .jstr s => s
  | .jnum n => toString n
  | .jbool b => if b then "true" else "false"
  | .jarr _ => "[]"
  | .jobj _ => "map[]"
  | .jtime t => toString t

/-- Model of `toString(v)` from the mongo package: nil gives `("", false)`, a string
gives itself, anything else goes through `fmt.Sprint`.  A JSON `null`
decodes to a nil interface, so `jnull` behaves as missing. -/
def toStringGo : Option JVal → String × Bool
  | none => ("", false)
  | some .jnull => ("", false)
  | some (.jstr s) => (s, true)
  | some v => (sprint v, true)

/-- Model of `mustString(v)`: first component of `toString(v)`. -/
def mustString (v : Option JVal) : String :=
  (toStringGo v).1

/-- The checked type assertion `m["idMeal"].(string)` with the ok-form
discarded: a string value yields itself, anything else (missing, null,
numbers, ...) yields `""`. -/
def asStringGo : Option JVal → String
  | some (.jstr s) => s
  | _ => ""

/-! ## Import pipeline (`ImportFromFile`'s per-record loop) -/

/-- The slot key `fmt.Sprintf("strIngredient%d", i)`. -/
def ingKey (i : Nat) : String := "strIngredient" ++ toString i

/-- The slot key `fmt.Sprintf("strMeasure%d", i)`. -/
def msKey (i : Nat) : String := "strMeasure" ++ toString i

/-- The ingredient-building loop: scan slot-pairs `i = 1..20`, keep
`{name, measure}` whenever the converted name slot is non-empty. -/
def buildIngredients (m : Doc) : List (String × String) :=
  (List.range' 1 20).filterMap fun i =>
    let inVal := (toStringGo (m.get (ingKey i))).1
    let msVal := (toStringGo (m.get (msKey i))).1
    if inVal ≠ "" then some (inVal, msVal) else none

/-- The normalized document prepared for one record: fixed top-level
fields, the derived `ingredients` array, the raw record under `raw`, and
`updatedAt` stamped with the run's clock. -/
def normalizeDoc (now : Nat) (id : String) (m : Doc) : Doc :=
  [("idMeal", .jstr id),
   ("strMeal", .jstr (mustString (m.get "strMeal"))),
   ("strCategory", .jstr (mustString (m.get "strCategory"))),
   ("strArea", .jstr (mustString (m.get "strArea"))),
   ("strInstructions", .jstr (mustString (m.get "strInstructions"))),
   ("strMealThumb", .jstr (mustString (m.get "strMealThumb"))),
   ("strYoutube", .jstr (mustString (m.get "strYoutube"))),
   ("ingredients", .jarr (buildIngredients m |>.map fun nm =>
      .jobj [("name", .jstr nm.1), ("measure", .jstr nm.2)])),
   ("raw", .jobj m),
   ("updatedAt", .jtime now)]

/-- Mongo's `$set` update applied to an existing document: every field of
`upd` is written (overwriting any present value), fields of `old` outside
`upd` are kept. -/
def mergeSet (old upd : Doc) : Doc :=
  (old.filter fun kv => ((Doc.get upd kv.1).isNone : Bool)) ++ upd

/-- The primary store's `meals` collection, keyed by `idMeal`. -/
abbrev Coll := List (String × Doc)

/-- Collection lookup by natural key. -/
def Coll.get (c : Coll) (id : String) : Option Doc :=
  List.lookup id c

/-- Model of `UpdateOne(filter idMeal=id, set doc, upsert)`: replace-or-insert;
on a match the stored document receives `$set doc`, otherwise a fresh
document (the `$set` fields, which include the filter's `idMeal`) is
inserted. -/
def upsertColl (c : Coll) (id : String) (doc : Doc) : Coll :=
  if (Coll.get c id).isSome then
    c.map fun kv => if kv.1 = id then (id, mergeSet kv.2 doc) else kv
  else
    c ++ [(id, doc)]

/-- Storage errors (the redis / mongo client errors), as opaque strings. -/
abbrev Err := String

/-- The per-record loop of `ImportFromFile` over the decoded records.
`failAt` injects the primary store's per-upsert outcome (`some e`: the
`UpdateOne` call fails with `e`).  Records whose `idMeal` is missing,
empty or not a string are skipped; the first failed upsert stops the loop,
returning the storage error as is; on success the loop continues on the
updated collection.  Result: final collection and the returned error. -/
def importRecords (failAt : String → Option Err) (now : Nat) :
    List Doc → Coll → Coll × Option Err
  | [], c => (c, none)
  | m :: rest, c =>
    let id := asStringGo (m.get "idMeal")
    if id = "" then importRecords failAt now rest c
    else
      match failAt id with
      | some e => (c, some e)
      | none => importRecords failAt now rest (upsertColl c id (normalizeDoc now id m))

/-- A store whose every upsert succeeds. -/
def noFail : String → Option Err := fun _ => none

/-! ## Cache-aside lookup (`GetMealByID`) and construction (`New`)

The redis payload of a key is the JSON serialization of a document; a
corrupted / foreign payload that `json.Unmarshal` rejects is `garbage`.
Redis expiry is absolute: a `Set` with the 24-hour TTL at time `now`
stores expiry `now + 24*3600`, and a `Get` at time `t` returns the payload
iff `t < expiry`.  Connection-level failures of the redis `Get` and of the
`Marshal`/`Set` populate step are injected as boolean parameters; mongo's
per-key outcome is the store's `mongo` field. -/

/-- A cached payload: serialized bytes of a document, or bytes that do not
deserialize. -/
inductive CacheVal where
  | good : Doc → CacheVal
  | garbage : CacheVal

/-- Model of `json.Marshal` of a result document. -/
def marshal (d : Doc) : CacheVal := .good d

/-- Model of `json.Unmarshal` of a cached payload into a document. -/
def unmarshal : CacheVal → Option Doc
  | .good d => some d
  | .garbage => none

/-- Outcome of `FindOne(...).Decode` on the primary store for one key. -/
inductive MongoRes where
  | found : Doc → MongoRes
  | notFound : MongoRes
  | storeErr : Err → MongoRes

/-- The `Store` after construction: whether a redis client is attached
(`rdb ≠ nil`), the redis contents (key, payload, absolute expiry), and the
primary store's per-key behaviour. -/
structure StoreSt where
  rdb : Bool
  cache : List (String × (CacheVal × Nat))
  mongo : String → MongoRes

/-- The redis `Get`: `getFail` injects a connection error (any non-nil
`err`); otherwise the payload is returned iff present and unexpired. -/
def cacheGet (getFail : Bool) (now : Nat) (cache : List (String × (CacheVal × Nat)))
    (key : String) : Option CacheVal :=
  if getFail then none
  else
    match List.lookup key cache with
    | some ve => if now < ve.2 then some ve.1 else none
    | none => none

/-- The redis `Set` with TTL: bind `key` to `v` expiring at `exp`. -/
def cacheSet (cache : List (String × (CacheVal × Nat))) (key : String)
    (v : CacheVal) (exp : Nat) : List (String × (CacheVal × Nat)) :=
  if (List.lookup key cache).isSome then
    cache.map fun kv => if kv.1 = key then (key, (v, exp)) else kv
  else
    cache ++ [(key, (v, exp))]

/-- The whole cache-consultation step of `GetMealByID`: a document comes
back only when redis is attached, the `Get` succeeds with an unexpired
payload, and the payload deserializes; every failure mode yields `none`
(a miss). -/
def cacheHitDoc (st : StoreSt) (now : Nat) (getFail : Bool) (key : String) :
    Option Doc :=
  if st.rdb then
    match cacheGet getFail now st.cache key with
    | some v => unmarshal v
    | none => none
  else none

/-- One hour of model time, in seconds. -/
def hourSec : Nat := 3600

/-- Model of `GetMealByID(id)`: try redis under key `"meal:" ++ id`; on a hit
return immediately (no state change).  Otherwise consult mongo:
`ErrNoDocuments` becomes `(nil, nil)` (`ok none` here), other errors are
returned; on a hit the serialized document is written to redis with a
24-hour TTL when redis is attached and the `Marshal`+`Set` step succeeds
(`popOk`), the `Set`'s error being discarded either way. -/
def getMealByID (st : StoreSt) (now : Nat) (getFail popOk : Bool) (id : String) :
    Except Err (Option Doc) × StoreSt :=
  let key := "meal:" ++ id
  match cacheHitDoc st now getFail key with
  | some out => (.ok (some out), st)
  | none =>
    match st.mongo id with
    | .notFound => (.ok none, st)
    | .storeErr e => (.error e, st)
    | .found d =>
      let st' :=
        if st.rdb && popOk then
          { st with cache := cacheSet st.cache key (marshal d) (now + 24 * hourSec) }
        else st
      (.ok (some d), st')

/-- The outcome a key has at the primary store alone, as `GetMealByID`
reports it: found documents are returned, an absent key is the explicit
`ok none`, a store failure is the error itself. -/
def primaryOutcome (st : StoreSt) (id : String) : Except Err (Option Doc) :=
  match st.mongo id with
  | .found d => .ok (some d)
  | .notFound => .ok none
  | .storeErr e => .error e

/-- Model of `New(mongoURI, dbName, redisAddr, sugar)`: an unreachable mongo
(failed `Connect`/`Ping`) aborts construction with that error; a redis
address is attached only when non-empty and its ping succeeds — a failed
redis ping logs a warning and leaves `rdb = nil` (disabled for the
process lifetime).  The fresh store has an empty cache and the given
primary behaviour. -/
def newStore (mongoOk : Bool) (mongoErr : Err) (redisAddr : String)
    (redisOk : Bool) (mongo : String → MongoRes) : Except Err StoreSt :=
  if mongoOk then
    .ok { rdb := redisAddr ≠ "" && redisOk, cache := [], mongo := mongo }
  else
    .error mongoErr

/-! ## Claims about the measure parser -/

/-- C1: the claim states that a leading numeric token is matched in the
priority order mixed number, then simple fraction, then decimal/integer,
so that `Parse("1/2 tsp") = ("1/2", "tsp")` and
`Parse("1.5 cups") = ("1.5", "cups")`.  The code disagrees: under the
regexp's leftmost-first submatch semantics the first alternative
`[0-9]+(?:\s+[0-9]+/[0-9]+)?` already matches the bare leading integer and
the trailing `(.*)` absorbs the rest, so the fraction and decimal
alternatives are unreachable; the quantity captured from `"1/2 tsp"` is
`"1"` with unit `"/2 tsp"`, and from `"1.5 cups"` it is `"1"` with unit
`".5 cups"` (a mixed number such as `"1 1/2 cups"` still parses as
intended). -/
theorem C1_integer_shadows_fraction_and_decimal :
    parseMeasure "1/2 tsp" = (some "1", some "/2 tsp") ∧
    parseMeasure "1.5 cups" = (some "1", some ".5 cups") ∧
    parseMeasure "1 1/2 cups" = (some "1 1/2", some "cups") := by
  refine ⟨by decide, by decide, by decide⟩

/-- C7: every input whose trimmed form contains `'('` or the
case-insensitive substring `" or "` is returned whole as the quantity with
the unit absent, without any numeric decomposition. -/
theorem C7_compound_whole_string_quantity (msr : String)
    (h : isCompound (trimGo msr.data) = true) :
    parseMeasure msr = (some (String.mk (trimGo msr.data)), none) := by
  have hne : ¬ trimGo msr.data = [] := by
    intro he
    rw [he] at h
    exact absurd h (by decide)
  simp [parseMeasure, hne, h]

/-- Witness for C7 at the spec's example `"2 cups or more"`. -/
theorem C7_compound_whole_string_quantity_witness :
    isCompound (trimGo ("2 cups or more" : String).data) = true ∧
    parseMeasure "2 cups or more" =
      (some (String.mk (trimGo ("2 cups or more" : String).data)), none) :=
  ⟨by decide, C7_compound_whole_string_quantity "2 cups or more" (by decide)⟩

/-- C8: `parseMeasure` is a total function (it is a Lean `def` into
`Option String × Option String`, so every input yields some parsed
measure); an input that trims to empty yields both fields absent, and an
input on which the numeric regex does not match yields the whole trimmed
string as quantity with the unit absent (this also covers the
compound-rule branch, which produces the same fallback shape). -/
theorem C8_total_with_fallback (msr : String) :
    (trimGo msr.data = [] → parseMeasure msr = (none, none)) ∧
    (trimGo msr.data ≠ [] → findMeasureMatch (trimGo msr.data) = none →
      parseMeasure msr = (some (String.mk (trimGo msr.data)), none)) := by
  constructor
  · intro he
    simp [parseMeasure, he]
  · intro hne hm
    by_cases hc : isCompound (trimGo msr.data) = true
    · simp [parseMeasure, hne, hc]
    · simp [parseMeasure, hne, hc, hm]

/-- Witness for C8 at `""` (empty case) and `"abc"` (no numeric match). -/
theorem C8_total_with_fallback_witness :
    parseMeasure "" = (none, none) ∧
    (trimGo ("abc" : String).data ≠ [] ∧
      findMeasureMatch (trimGo ("abc" : String).data) = none ∧
      parseMeasure "abc" = (some (String.mk (trimGo ("abc" : String).data)), none)) :=
  ⟨(C8_total_with_fallback "").1 (by decide),
   by decide, by decide,
   (C8_total_with_fallback "abc").2 (by decide) (by decide)⟩

/-! ## Claims about the import pipeline -/

/-- Keeping exactly the pairs with a non-empty first component: a
`filterMap` with a guard equals mapping then filtering. -/
theorem filterMap_keep_nonempty (f g : Nat → String) (l : List Nat) :
    (l.filterMap fun i => if f i ≠ "" then some (f i, g i) else none) =
      (l.map fun i => (f i, g i)).filter fun p => decide (p.1 ≠ "") := by
  induction l with
  | nil => rfl
  | cons i l ih =>
    rw [List.filterMap_cons, List.map_cons, List.filter_cons, ih]
    by_cases h : f i = "" <;> simp [h]

/-- C9: the normalized document's ingredients are exactly the
`{name, measure}` pairs of slots 1..20 whose converted name slot is
non-empty, taken in increasing slot order; in particular every listed pair
has a non-empty name, so a pair with an empty name slot is dropped even
when its measure slot is non-empty. -/
theorem C9_ingredients_nonempty_slots (m : Doc) :
    buildIngredients m =
      ((List.range' 1 20).map fun i =>
        ((toStringGo (m.get (ingKey i))).1, (toStringGo (m.get (msKey i))).1)).filter
        (fun p => decide (p.1 ≠ "")) ∧
    ∀ p ∈ buildIngredients m, p.1 ≠ "" := by
  have hmain := filterMap_keep_nonempty
    (fun i => (toStringGo (m.get (ingKey i))).1)
    (fun i => (toStringGo (m.get (msKey i))).1) (List.range' 1 20)
  refine ⟨hmain, ?_⟩
  intro p hp
  rw [show buildIngredients m = _ from hmain] at hp
  have := List.of_mem_filter hp
  simpa using this

/-- C10: a record whose `idMeal` field is missing, empty, or not a string
is silently skipped: the run is exactly the run on the batch without that
record — the record is never upserted, it never causes an error, and all
other records are still processed. -/
theorem C10_bad_key_skipped (failAt : String → Option Err) (now : Nat)
    (pre post : List Doc) (bad : Doc) (c : Coll)
    (h : asStringGo (bad.get "idMeal") = "") :
    importRecords failAt now (pre ++ bad :: post) c =
      importRecords failAt now (pre ++ post) c := by
  induction pre generalizing c with
  | nil => simp [importRecords, h]
  | cons m rest ih =>
    simp only [List.cons_append, importRecords]
    by_cases hid : asStringGo (m.get "idMeal") = ""
    · simp only [hid, if_pos rfl]
      exact ih c
    · simp only [if_neg hid]
      cases failAt (asStringGo (m.get "idMeal")) with
      | some e => rfl
      | none => exact ih _

/-- A record with a numeric natural key. -/
def badRec : Doc := [("idMeal", .jnum 5), ("strMeal", .jstr "X")]

/-- A record with a well-formed natural key. -/
def goodRec : Doc := [("idMeal", .jstr "7"), ("strMeal", .jstr "Y")]

/-- Witness for C10: importing a numeric-id record alongside a good one
equals importing the good one alone. -/
theorem C10_bad_key_skipped_witness :
    asStringGo (badRec.get "idMeal") = "" ∧
    importRecords noFail 0 [badRec, goodRec] [] =
      importRecords noFail 0 [goodRec] [] :=
  ⟨rfl, C10_bad_key_skipped noFail 0 [] [goodRec] badRec [] rfl⟩

/-- C3 (amended): the first failed upsert aborts the run; the storage
error is returned to the caller unchanged (the offending key goes only to
the error log, not the returned error), and the upserts committed for
earlier records are retained — the final collection is the one the prefix
alone produces. -/
theorem C3_first_failure_aborts (failAt : String → Option Err) (now : Nat)
    (pre post : List Doc) (bad : Doc) (c : Coll) (e : Err)
    (hpre : ∀ r ∈ pre, asStringGo (r.get "idMeal") = "" ∨
      failAt (asStringGo (r.get "idMeal")) = none)
    (hid : asStringGo (bad.get "idMeal") ≠ "")
    (hf : failAt (asStringGo (bad.get "idMeal")) = some e) :
    importRecords failAt now (pre ++ bad :: post) c =
      ((importRecords failAt now pre c).1, some e) := by
  induction pre generalizing c with
  | nil => simp [importRecords, hid, hf]
  | cons m rest ih =>
    have hpre' : ∀ r ∈ rest, asStringGo (r.get "idMeal") = "" ∨
        failAt (asStringGo (r.get "idMeal")) = none := by
      intro r hr
      exact hpre r (List.mem_cons_of_mem m hr)
    have hm := hpre m (List.mem_cons_self m rest)
    simp only [List.cons_append, importRecords]
    by_cases hid2 : asStringGo (m.get "idMeal") = ""
    · simp only [if_pos hid2]
      exact ih c hpre'
    · rcases hm with hm | hm
      · exact absurd hm hid2
      · simp only [if_neg hid2, hm]
        exact ih _ hpre'

/-- A record keyed `"A"`. -/
def recA : Doc := [("idMeal", .jstr "A")]

/-- A record keyed `"B"`. -/
def recB : Doc := [("idMeal", .jstr "B")]

/-- A primary store whose every upsert fails with the same error. -/
def failAll : String → Option Err := fun _ => some "disk full"

/-- Counterexample to C3 as stated: two runs whose offending records have
different natural keys surface the very same error value, so the error
returned to the caller cannot carry the offending record's key as context
(only the log line does). -/
theorem C3_counterexample :
    (importRecords failAll 0 [recA] []).2 = (importRecords failAll 0 [recB] []).2 ∧
    asStringGo (recA.get "idMeal") ≠ asStringGo (recB.get "idMeal") :=
  ⟨rfl, by decide⟩

/-- A failure configuration that rejects exactly key `"B"`. -/
def failB : String → Option Err := fun s => if s = "B" then some "boom" else none

/-- A record keyed `"C"`. -/
def recC : Doc := [("idMeal", .jstr "C")]

/-- Witness for the amended C3: with records A, B, C and the upsert of B
failing, the run stops at B, returns the raw error, and keeps A's upsert. -/
theorem C3_first_failure_aborts_witness :
    asStringGo (recB.get "idMeal") ≠ "" ∧
    failB (asStringGo (recB.get "idMeal")) = some "boom" ∧
    importRecords failB 0 [recA, recB, recC] [] =
      ((importRecords failB 0 [recA] []).1, some "boom") :=
  ⟨by decide, rfl,
   C3_first_failure_aborts failB 0 [recA] [recC] recB [] "boom"
     (by decide) (by decide) rfl⟩

/-- Drop one field of a document (used to compare documents outside
`updatedAt`). -/
def dropKey (k : String) (d : Doc) : Doc :=
  d.filter fun kv => decide (kv.1 ≠ k)

/-- A `$set` update with a complete field set is a full replacement: when every
field of `old` is also written by `upd`, merging leaves exactly `upd`. -/
theorem mergeSet_total :
    ∀ old : Doc, ∀ upd : Doc,
      (∀ kv ∈ old, (Doc.get upd kv.1).isSome = true) → mergeSet old upd = upd
  | [], _, _ => rfl
  | kv :: old, upd, h => by
    have h1 := h kv (List.mem_cons_self kv old)
    have h2 : (Doc.get upd kv.1).isNone = false := by
      cases hx : Doc.get upd kv.1 with
      | none => rw [hx] at h1; exact absurd h1 (by decide)
      | some v => rfl
    have ih := mergeSet_total old upd fun kv hkv => h kv (List.mem_cons_of_mem _ hkv)
    unfold mergeSet at ih ⊢
    rw [List.filter_cons, h2]
    simpa using ih

/-- Every field name of one normalized document is written by any other
normalized document: the importer always writes the same fixed field set. -/
theorem normalizeDoc_keys_present (t1 t2 : Nat) (id1 id2 : String) (m1 m2 : Doc) :
    ∀ kv ∈ normalizeDoc t1 id1 m1, (Doc.get (normalizeDoc t2 id2 m2) kv.1).isSome = true := by
  intro kv hkv
  simp only [normalizeDoc, List.mem_cons, List.not_mem_nil, or_false] at hkv
  rcases hkv with rfl | rfl | rfl | rfl | rfl | rfl | rfl | rfl | rfl | rfl <;> rfl

/-- C2 (amended): re-importing the same record replaces the stored
document with exactly the document a single run at the second run's clock
produces — the upsert overwrites every field the importer writes — and
that document agrees with the first run's document on every field except
`updatedAt`, which holds the clock of the latest run. -/
theorem C2_idempotent_up_to_updatedAt (m : Doc) (t1 t2 : Nat)
    (hid : asStringGo (m.get "idMeal") ≠ "") :
    importRecords noFail t2 [m] (importRecords noFail t1 [m] []).1 =
      importRecords noFail t2 [m] [] ∧
    dropKey "updatedAt" (normalizeDoc t1 (asStringGo (m.get "idMeal")) m) =
      dropKey "updatedAt" (normalizeDoc t2 (asStringGo (m.get "idMeal")) m) := by
  constructor
  · have hmerge := mergeSet_total
      (normalizeDoc t1 (asStringGo (m.get "idMeal")) m)
      (normalizeDoc t2 (asStringGo (m.get "idMeal")) m)
      (normalizeDoc_keys_present t1 t2 _ _ m m)
    simp [importRecords, hid, noFail, upsertColl, Coll.get, List.lookup, hmerge]
  · rfl

/-- The single record of the C2 scenario. -/
def recOne : Doc := [("idMeal", .jstr "1")]

/-- Counterexample to C2 as stated: the normalized document contains an
`updatedAt` field stamped with the run's clock, so running the same
one-record input twice (the second run at a later clock) leaves a stored
document different from the one a single run produced. -/
theorem C2_counterexample :
    Coll.get (importRecords noFail 1 [recOne]
        (importRecords noFail 0 [recOne] []).1).1 "1" ≠
      Coll.get (importRecords noFail 0 [recOne] []).1 "1" := by
  intro h
  have h1 : (Coll.get (importRecords noFail 1 [recOne]
      (importRecords noFail 0 [recOne] []).1).1 "1").bind
        (fun d => Doc.get d "updatedAt") = some (JVal.jtime 1) := rfl
  rw [h] at h1
  have h2 : (Coll.get (importRecords noFail 0 [recOne] []).1 "1").bind
      (fun d => Doc.get d "updatedAt") = some (JVal.jtime 0) := rfl
  rw [h2] at h1
  injection h1 with h3
  injection h3 with h4
  exact absurd h4 (by decide)

/-- Witness for the amended C2 at `recOne` with run clocks 3 and 7. -/
theorem C2_idempotent_up_to_updatedAt_witness :
    asStringGo (recOne.get "idMeal") ≠ "" ∧
    (importRecords noFail 7 [recOne] (importRecords noFail 3 [recOne] []).1 =
        importRecords noFail 7 [recOne] [] ∧
      dropKey "updatedAt" (normalizeDoc 3 (asStringGo (recOne.get "idMeal")) recOne) =
        dropKey "updatedAt" (normalizeDoc 7 (asStringGo (recOne.get "idMeal")) recOne)) :=
  ⟨by decide, C2_idempotent_up_to_updatedAt recOne 3 7 (by decide)⟩

/-! ## Claims about the cache-aside lookup and construction -/

/-- Association-list lookup skips a prefix it misses. -/
theorem lookup_append_of_none {β : Type} (k : String) :
    ∀ l1 : List (String × β), ∀ l2 : List (String × β),
      List.lookup k l1 = none → List.lookup k (l1 ++ l2) = List.lookup k l2
  | [], _, _ => rfl
  | (k1, v1) :: l1, l2, h => by
    rw [List.cons_append]
    rw [List.lookup] at h ⊢
    cases hk : k == k1 with
    | true => rw [hk] at h; exact absurd h (by simp)
    | false =>
      rw [hk] at h
      exact lookup_append_of_none k l1 l2 h

/-- A successful cache consultation returns immediately with no state
change. -/
theorem getMealByID_hit (st : StoreSt) (now : Nat) (getF popOk : Bool)
    (id : String) (d : Doc)
    (h : cacheHitDoc st now getF ("meal:" ++ id) = some d) :
    getMealByID st now getF popOk id = (.ok (some d), st) := by
  simp [getMealByID, h]

/-- C4: on a key the primary store holds and the cache misses, `Get` reads
the primary store and returns its document whatever becomes of the cache
(`getF`: the redis lookup's connection error, `popOk`: whether the
populate step succeeds — neither affects the returned value); when the
populate step succeeds the serialized document is stored under
`"meal:" ++ id` with expiry exactly 24 hours from now; and a second `Get`
before that expiry (with any primary-store behaviour `mongo2`, including a
totally unavailable one) is served from the cache: it returns the same
document and leaves the state — in particular the expiry — untouched. -/
theorem C4_cache_aside (st : StoreSt) (now t2 : Nat) (id : String) (d : Doc)
    (getF popOk popOk2 : Bool) (mongo2 : String → MongoRes)
    (hrdb : st.rdb = true)
    (hmiss : List.lookup ("meal:" ++ id) st.cache = none)
    (hfound : st.mongo id = .found d)
    (ht2 : t2 < now + 24 * hourSec) :
    (getMealByID st now getF popOk id).1 = .ok (some d) ∧
    List.lookup ("meal:" ++ id) ((getMealByID st now getF true id).2).cache =
      some (marshal d, now + 24 * hourSec) ∧
    getMealByID { (getMealByID st now getF true id).2 with mongo := mongo2 }
        t2 false popOk2 id =
      (.ok (some d), { (getMealByID st now getF true id).2 with mongo := mongo2 }) := by
  have hch : cacheHitDoc st now getF ("meal:" ++ id) = none := by
    cases getF <;> simp [cacheHitDoc, cacheGet, hrdb, hmiss]
  have hst' : (getMealByID st now getF true id).2 =
      { st with cache := cacheSet st.cache ("meal:" ++ id) (marshal d) (now + 24 * hourSec) } := by
    simp [getMealByID, hch, hfound, hrdb]
  have hlook : List.lookup ("meal:" ++ id)
      (cacheSet st.cache ("meal:" ++ id) (marshal d) (now + 24 * hourSec)) =
      some (marshal d, now + 24 * hourSec) := by
    unfold cacheSet
    rw [hmiss]
    simp only [Option.isSome_none, Bool.false_eq_true, if_false]
    rw [lookup_append_of_none _ _ _ hmiss]
    simp [List.lookup]
  refine ⟨?_, ?_, ?_⟩
  · cases popOk <;> simp [getMealByID, hch, hfound]
  · rw [hst']
    exact hlook
  · have hhit : cacheHitDoc { (getMealByID st now getF true id).2 with mongo := mongo2 }
        t2 false ("meal:" ++ id) = some d := by
      rw [hst']
      simp only [cacheHitDoc, cacheGet, hrdb, if_true, Bool.false_eq_true, if_false, hlook]
      simp [ht2, marshal, unmarshal]
    exact getMealByID_hit _ t2 false popOk2 id d hhit

/-- A primary store holding exactly `goodRec` under key `"7"`. -/
def mongoOne : String → MongoRes := fun i => if i = "7" then .found goodRec else .notFound

/-- A store with redis attached, an empty cache, and `mongoOne` behind. -/
def stOne : StoreSt := { rdb := true, cache := [], mongo := mongoOne }

/-- A primary store that fails every read. -/
def mongoDown : String → MongoRes := fun _ => .storeErr "primary down"

/-- Witness for C4: a one-document primary store, an empty cache, run
clock 0, a second read at the last second before expiry, against a primary
store that fails every read. -/
theorem C4_cache_aside_witness :
    stOne.rdb = true ∧
    (getMealByID stOne 0 true false "7").1 = .ok (some goodRec) ∧
    List.lookup ("meal:" ++ "7") ((getMealByID stOne 0 true true "7").2).cache =
      some (marshal goodRec, 0 + 24 * hourSec) ∧
    getMealByID { (getMealByID stOne 0 true true "7").2 with mongo := mongoDown } 86399 false true "7" =
      (.ok (some goodRec), { (getMealByID stOne 0 true true "7").2 with mongo := mongoDown }) := by
  have h := C4_cache_aside stOne 0 86399 "7" goodRec true false true mongoDown
    rfl rfl (by simp [stOne, mongoOne]) (by decide)
  exact ⟨rfl, h.1, h.2.1, h.2.2⟩

/-- C5: when the cache consultation yields no document — a miss, an
expired entry, a payload that fails to deserialize, or a redis connection
error — the value `Get` returns is exactly the primary store's outcome:
a found document, the explicit `ok none` for an absent key (never an
error), or the primary store's error (the only error source, and a
constructor distinct from `ok none`).  In particular a redis connection
failure is always treated as a miss, and a key absent from the primary
store yields `ok none` whatever the cache did. -/
theorem C5_only_primary_errors (st : StoreSt) (now : Nat) (getF popOk : Bool)
    (id : String)
    (hmiss : cacheHitDoc st now getF ("meal:" ++ id) = none) :
    (getMealByID st now getF popOk id).1 = primaryOutcome st id ∧
    cacheHitDoc st now true ("meal:" ++ id) = none ∧
    (getMealByID { st with mongo := fun _ => .notFound } now getF popOk id).1 =
      .ok none := by
  have hmiss2 : cacheHitDoc { st with mongo := fun _ => .notFound } now getF
      ("meal:" ++ id) = none := hmiss
  refine ⟨?_, ?_, ?_⟩
  · cases hm : st.mongo id <;> simp [getMealByID, hmiss, hm, primaryOutcome]
  · cases hrdb : st.rdb <;> simp [cacheHitDoc, cacheGet, hrdb]
  · simp [getMealByID, hmiss2]

/-- A store with a corrupted cached payload for key `"9"` and an empty
primary store. -/
def garbageStore : StoreSt :=
  { rdb := true,
    cache := [("meal:9", (CacheVal.garbage, 100))],
    mongo := fun _ => .notFound }

/-- Witness for C5: the corrupted payload deserializes to nothing, is
treated as a miss, and the absent key comes back as `ok none`. -/
theorem C5_only_primary_errors_witness :
    cacheHitDoc garbageStore 0 false ("meal:" ++ "9") = none ∧
    ((getMealByID garbageStore 0 false true "9").1 = primaryOutcome garbageStore "9" ∧
      cacheHitDoc garbageStore 0 true ("meal:" ++ "9") = none ∧
      (getMealByID { garbageStore with mongo := fun _ => .notFound } 0 false true "9").1 =
        .ok none) :=
  ⟨rfl, C5_only_primary_errors garbageStore 0 false true "9" rfl⟩

/-- C6: construction with a reachable primary store but an unreachable
cache endpoint succeeds, yielding a store with the cache disabled
(`rdb = nil`) for its lifetime; a `Get` on that store falls through to the
primary store, succeeds, and leaves the store unchanged; an unreachable
primary store makes construction return the connection error. -/
theorem C6_degraded_construction (mongoErr : Err) (redisAddr : String)
    (redisOk : Bool) (mongo : String → MongoRes) (id : String) (d : Doc)
    (now : Nat) (getF popOk : Bool)
    (hra : redisAddr ≠ "")
    (hfound : mongo id = .found d) :
    newStore true mongoErr redisAddr false mongo =
      .ok { rdb := false, cache := [], mongo := mongo } ∧
    getMealByID { rdb := false, cache := [], mongo := mongo } now getF popOk id =
      (.ok (some d), { rdb := false, cache := [], mongo := mongo }) ∧
    newStore false mongoErr redisAddr redisOk mongo = .error mongoErr := by
  refine ⟨?_, ?_, ?_⟩
  · simp [newStore]
  · simp [getMealByID, cacheHitDoc, hfound]
  · rfl

/-- The cache-disabled store C6's construction yields over `mongoOne`. -/
def stDisabled : StoreSt := { rdb := false, cache := [], mongo := mongoOne }

/-- Witness for C6: redis at a non-empty but unreachable address, mongo
holding one record. -/
theorem C6_degraded_construction_witness :
    ("r:6379" : String) ≠ "" ∧
    mongoOne "7" = .found goodRec ∧
    (newStore true "mongo down" "r:6379" false mongoOne = .ok stDisabled ∧
      getMealByID stDisabled 5 true false "7" = (.ok (some goodRec), stDisabled) ∧
      newStore false "mongo down" "r:6379" true mongoOne = .error "mongo down") :=
  ⟨by decide, by simp [mongoOne],
   C6_degraded_construction "mongo down" "r:6379" true mongoOne "7" goodRec 5 true false
     (by decide) (by simp [mongoOne])⟩

end MealPrep
